import Mathlib

/-! EthWalletMonitor: the diff-and-alert engine of `src/EthWalletMonitor.jsx`

A shallow embedding of the stateful part of the React component
`EthWalletMonitor`: `fetchWalletData`, `addWallet`, `refreshWallet`, `addAlert`
and `shortenAddress`, with the React state (`walletAddress`, `apiKey`,
`monitoredWallets`, `alerts`, `loading`, `thresholds`) as an explicit record.

Modelling conventions.

* The two Etherscan requests of `fetchWalletData` are inputs of the model: each
  is either a thrown exception or a decoded JSON body `{status, message, result}`.
* Amounts returned by the ledger are integers in wei (`Nat`).  In
  `(parseInt(x) / 1e18).toFixed(4)` the conversion `parseInt` and the division
  are those of IEEE binary64 (53 significant bits, round to nearest, ties to
  even), and `toFixed(4)` rounds the exact value of the resulting double to 4
  decimals, ties upwards.  The resulting string is represented by the number of
  ten-thousandths of an ether it denotes.  Overflow and underflow are not
  modelled: they need an amount of at least 2^1023 wei, and amounts are
  256-bit.
* The numbers obtained by `parseFloat`, from a 4-decimal string or from a form
  field, are `NaN` or an exact rational: their arithmetic and comparisons are
  those of the decimal values.  The thresholds are such numbers (`NaN` when the
  field is blank).
* `new Date().toISOString()` is the input `now`, read once per run.
* Every template literal used as an alert message is a constructor of
  `Message` carrying the interpolated values.
* The calls of `addAlert` made by one run are collected in call order and then
  pushed one by one on the alert log.
-/

namespace EthWalletMonitor

/-- The values of the `type` field of an alert. -/
inductive AlertType where
  | success
  | warning
  | error
  | info
deriving DecidableEq, Repr

/-- The word interpolated at the end of a "New transaction" message. -/
inductive Direction where
  | sent
  | received
deriving DecidableEq, Repr

/-- A JavaScript number as produced by `parseFloat`: `NaN` or a finite value. -/
inductive JSNumber where
  | nan
  | finite (q : ℚ)
deriving DecidableEq

/-- JavaScript `a <= b`: false as soon as one side is `NaN`. -/
def JSNumber.le : JSNumber → JSNumber → Bool
  | .finite a, .finite b => decide (a ≤ b)
  | _, _ => false

/-- JavaScript `a >= b`. -/
def JSNumber.ge (a b : JSNumber) : Bool := JSNumber.le b a

/-- JavaScript `a > b`: false as soon as one side is `NaN`. -/
def JSNumber.gt : JSNumber → JSNumber → Bool
  | .finite a, .finite b => decide (b < a)
  | _, _ => false

/-- JavaScript `a !== b` on numbers: true as soon as one side is `NaN`. -/
def JSNumber.strictNe : JSNumber → JSNumber → Bool
  | .finite a, .finite b => decide (a ≠ b)
  | _, _ => true

/-- JavaScript `a - b`. -/
def JSNumber.sub : JSNumber → JSNumber → JSNumber
  | .finite a, .finite b => .finite (a - b)
  | _, _ => .nan

/-- JavaScript `Math.abs(a)`. -/
def JSNumber.abs : JSNumber → JSNumber
  | .finite a => .finite |a|
  | .nan => .nan

/-- The message templates of the component, with their interpolated values. -/
inductive Message where
  /-- Template "Wallet (short) added to monitoring". -/
  | walletAdded (short : String)
  /-- Template "Failed to add wallet: (error.message)". -/
  | failedToAdd (reason : String)
  /-- Template "Balance increased/decreased by (amount, shown with 4 decimals) ETH for (short)". -/
  | balanceChanged (increased : Bool) (amount : JSNumber) (short : String)
  /-- Template "New transaction: (value) ETH sent/received". -/
  | newTransaction (value : JSNumber) (direction : Direction)
  /-- Template "Failed to refresh wallet: (error.message)". -/
  | failedToRefresh (reason : String)
deriving DecidableEq

/-- An entry of the alert log. -/
structure Alert where
  type : AlertType
  message : Message
  timestamp : String
  txHash : Option String
deriving DecidableEq

/-- The fields of an Etherscan transaction record that the component reads;
`value` is in wei. -/
structure Tx where
  hash : String
  from_ : String
  value : Nat
deriving DecidableEq

/-- The state `thresholds`. -/
structure Thresholds where
  minTxValue : JSNumber
  maxTxValue : JSNumber
  alertOnAnyTx : Bool
deriving DecidableEq

/-- An element of `monitoredWallets`; `balance` is the 4-decimal string, held
as a number of ten-thousandths of an ether. -/
structure Wallet where
  address : String
  balance : Nat
  txCount : Nat
  lastChecked : String
  transactions : List Tx
deriving DecidableEq

/-- The object returned by `fetchWalletData`. -/
structure WalletData where
  balance : Nat
  txCount : Nat
  transactions : List Tx
deriving DecidableEq

/-- The React state of the component. -/
structure State where
  walletAddress : String
  apiKey : String
  monitoredWallets : List Wallet
  alerts : List Alert
  loading : Bool
  thresholds : Thresholds
deriving DecidableEq

/-- The outcome of `await fetch(url)` followed by `await res.json()`: an
exception carrying `error.message`, or the decoded body. -/
inductive Response (α : Type) where
  | threw (reason : String)
  | json (status : String) (message : Option String) (result : α)

/-- The initial value of `thresholds`. -/
def defaultThresholds : Thresholds :=
  { minTxValue := .finite 1, maxTxValue := .finite 100, alertOnAnyTx := true }

/-- The initial React state. -/
def initialState : State :=
  { walletAddress := "", apiKey := "", monitoredWallets := [], alerts := [],
    loading := false, thresholds := defaultThresholds }

/-- A non-negative finite binary64 number, `mant * 2 ^ exp`. -/
structure Double where
  mant : Nat
  exp : Int
deriving DecidableEq

/-- The numerator of a double written as a fraction over a power of two. -/
def Double.num (x : Double) : Nat := if x.exp < 0 then x.mant else x.mant * 2 ^ x.exp.toNat

/-- The denominator of a double written as a fraction over a power of two. -/
def Double.den (x : Double) : Nat := if x.exp < 0 then 2 ^ (-x.exp).toNat else 1

/-- The number of binary digits of `n`, computed with `fuel` halvings at most. -/
def bitLengthAux : Nat → Nat → Nat
  | 0, _ => 0
  | fuel + 1, n => if n = 0 then 0 else bitLengthAux fuel (n / 2) + 1

/-- The number of binary digits of `n`. -/
def bitLength (n : Nat) : Nat := bitLengthAux n n

/-- The numerator of `num / (den * 2 ^ e)` as a fraction of naturals. -/
def scaledNum (num : Nat) (e : Int) : Nat := if e < 0 then num * 2 ^ (-e).toNat else num

/-- The denominator of `num / (den * 2 ^ e)` as a fraction of naturals. -/
def scaledDen (den : Nat) (e : Int) : Nat := if e < 0 then den else den * 2 ^ e.toNat

/-- The binary64 number nearest to `num / den`, ties to the even significand:
the exponent `e` is the one for which `num / (den * 2 ^ e)` has 53 binary
digits before the point, and the significand is that quotient rounded. -/
def roundToDouble (num den : Nat) : Double :=
  if num = 0 then ⟨0, 0⟩ else
  let e0 : Int := (bitLength num : Int) - (bitLength den : Int) - 53
  let e := if scaledNum num e0 / scaledDen den e0 < 2 ^ 53 then e0 else e0 + 1
  let n := scaledNum num e
  let d := scaledDen den e
  let m := n / d
  let r := n % d
  if 2 * r > d ∨ (2 * r = d ∧ m % 2 = 1) then ⟨m + 1, e⟩ else ⟨m, e⟩

/-- The exponent chosen by `roundToDouble`. -/
def roundExp (num den : Nat) : Int :=
  if scaledNum num ((bitLength num : Int) - (bitLength den : Int) - 53) /
      scaledDen den ((bitLength num : Int) - (bitLength den : Int) - 53) < 2 ^ 53
  then (bitLength num : Int) - (bitLength den : Int) - 53
  else (bitLength num : Int) - (bitLength den : Int) - 53 + 1

/-- The rational value of a double. -/
def Double.val (x : Double) : ℚ := (x.num : ℚ) / (x.den : ℚ)

/-- The number `parseInt(str)` for the decimal digits `str` of `n`, correctly
rounded. -/
def parseInt (n : Nat) : Double := roundToDouble n 1

/-- The quotient `x / 1e18`; the literal `1e18` is the double 10 ^ 18 exactly. -/
def Double.divE18 (x : Double) : Double := roundToDouble x.num (x.den * 10 ^ 18)

/-- The string `x.toFixed(4)` as a number of ten-thousandths: the integer `n`
nearest to `x * 10 ^ 4`, the larger one of two.  (From 1e21 on `toFixed` prints
the double itself, which is the same number of ten-thousandths.) -/
def Double.toFixed4 (x : Double) : Nat := (2 * x.num * 10 ^ 4 + x.den) / (2 * x.den)

/-- The string `(parseInt(x) / 1e18).toFixed(4)` for a wei amount `x`, as a
number of ten-thousandths of an ether. -/
def toFixed4 (wei : Nat) : Nat := (parseInt wei).divE18.toFixed4

/-- The number `parseFloat(str)` for a 4-decimal string `str`. -/
def parseFloat (tenThousandths : Nat) : JSNumber := .finite ((tenThousandths : ℚ) / 10000)

/-- The string `s.toLowerCase()`.  Addresses are ASCII; the ASCII letters are folded. -/
def toLowerCase (s : String) : String := ⟨s.data.map Char.toLower⟩

/-- The function `shortenAddress`: `addr.slice(0, 6)`, three dots, `addr.slice(-4)`. -/
def shortenAddress (addr : String) : String :=
  ⟨addr.data.take 6 ++ ['.', '.', '.'] ++ addr.data.drop (addr.data.length - 4)⟩

/-- The expression `m || fallback` for the `message` field of a response body. -/
def orElse (m : Option String) (fallback : String) : String :=
  match m with
  | some s => if s = "" then fallback else s
  | none => fallback

/-- The function `addAlert`: `setAlerts(prev => [alert, ...prev].slice(0, 50))`. -/
def addAlert (prev : List Alert) (alert : Alert) : List Alert :=
  (alert :: prev).take 50

/-- The function `fetchWalletData`, given the outcomes of its two requests.
The second request is only looked at when the first one has status '1'. -/
def fetchWalletData (balanceRes : Response Nat) (txRes : Response (List Tx)) :
    Except String WalletData :=
  match balanceRes with
  | .threw reason => .error reason
  | .json status message result =>
    if status ≠ "1" then .error (orElse message "Failed to fetch balance")
    else
      match txRes with
      | .threw reason => .error reason
      | .json txStatus txMessage txResult =>
        if txStatus ≠ "1" then .error (orElse txMessage "Failed to fetch transactions")
        else .ok { balance := toFixed4 result, txCount := txResult.length,
                   transactions := txResult }

/-- The balance check of `refreshWallet` (source lines 89-100): the alerts it
passes to `addAlert`. -/
def balanceAlerts (wallet : Wallet) (data : WalletData) (now : String) : List Alert :=
  let oldBalance := parseFloat wallet.balance
  let newBalance := parseFloat data.balance
  if JSNumber.strictNe oldBalance newBalance then
    let change := JSNumber.sub newBalance oldBalance
    [{ type := if JSNumber.gt change (.finite 0) then .success else .warning,
       message := .balanceChanged (JSNumber.gt change (.finite 0)) (JSNumber.abs change)
         (shortenAddress wallet.address),
       timestamp := now, txHash := none }]
  else []

/-- The list `newTxs` iterated by `refreshWallet` (source lines 103-104), empty
when the guard `data.txCount > wallet.txCount` fails. -/
def newTxs (wallet : Wallet) (data : WalletData) : List Tx :=
  if data.txCount > wallet.txCount then
    data.transactions.take (data.txCount - wallet.txCount)
  else []

/-- The body of the `forEach` of `refreshWallet` (source lines 106-115) for one
transaction: the alert passed to `addAlert`, if any. -/
def txAlert (thresholds : Thresholds) (wallet : Wallet) (now : String) (tx : Tx) :
    Option Alert :=
  let value := parseFloat (toFixed4 tx.value)
  if thresholds.alertOnAnyTx ||
      (JSNumber.ge value thresholds.minTxValue &&
        JSNumber.le value thresholds.maxTxValue) then
    some { type := .info,
           message := .newTransaction value
             (if toLowerCase tx.from_ = toLowerCase wallet.address then .sent else .received),
           timestamp := now, txHash := some tx.hash }
  else none

/-- The new-transaction check of `refreshWallet` (source lines 103-117): the
alerts it passes to `addAlert`, in call order. -/
def transactionAlerts (thresholds : Thresholds) (wallet : Wallet) (data : WalletData)
    (now : String) : List Alert :=
  (newTxs wallet data).filterMap (txAlert thresholds wallet now)

/-- All alerts passed to `addAlert` by the `try` block of `refreshWallet` once
the fetch has succeeded, in call order. -/
def refreshAlerts (thresholds : Thresholds) (wallet : Wallet) (data : WalletData)
    (now : String) : List Alert :=
  balanceAlerts wallet data now ++ transactionAlerts thresholds wallet data now

/-- Pushes a sequence of alerts on the log, one `addAlert` call each. -/
def pushAll (log : List Alert) (emitted : List Alert) : List Alert :=
  emitted.foldl addAlert log

/-- The object stored by `refreshWallet` at `updatedWallets[index]`. -/
def updatedWallet (wallet : Wallet) (data : WalletData) (now : String) : Wallet :=
  { wallet with balance := data.balance, txCount := data.txCount,
                transactions := data.transactions, lastChecked := now }

/-- The `error.message` of the TypeError raised by `wallet.address` when
`monitoredWallets[index]` is undefined. -/
def undefinedWalletError : String :=
  "Cannot read properties of undefined (reading 'address')"

/-- The function `refreshWallet(index)`, given the outcomes of the two requests
and the clock. -/
def refreshWallet (s : State) (index : Nat) (balanceRes : Response Nat)
    (txRes : Response (List Tx)) (now : String) : State :=
  match s.monitoredWallets[index]? with
  | none =>
    { s with
      alerts := addAlert s.alerts
        { type := .error, message := .failedToRefresh undefinedWalletError,
          timestamp := now, txHash := none },
      loading := false }
  | some wallet =>
    match fetchWalletData balanceRes txRes with
    | .error reason =>
      { s with
        alerts := addAlert s.alerts
          { type := .error, message := .failedToRefresh reason,
            timestamp := now, txHash := none },
        loading := false }
    | .ok data =>
      { s with
        monitoredWallets := s.monitoredWallets.set index (updatedWallet wallet data now),
        alerts := pushAll s.alerts (refreshAlerts s.thresholds wallet data now),
        loading := false }

/-- The function `addWallet()`, given the outcomes of the two requests and the
clock.  With an empty address or key the function only opens a dialog and
returns. -/
def addWallet (s : State) (balanceRes : Response Nat) (txRes : Response (List Tx))
    (now : String) : State :=
  if s.walletAddress = "" ∨ s.apiKey = "" then s
  else
    match fetchWalletData balanceRes txRes with
    | .ok data =>
      { s with
        monitoredWallets := s.monitoredWallets ++
          [{ address := s.walletAddress, balance := data.balance, txCount := data.txCount,
             lastChecked := now, transactions := data.transactions }],
        walletAddress := "",
        alerts := addAlert s.alerts
          { type := .success, message := .walletAdded (shortenAddress s.walletAddress),
            timestamp := now, txHash := none },
        loading := false }
    | .error reason =>
      { s with
        alerts := addAlert s.alerts
          { type := .error, message := .failedToAdd reason,
            timestamp := now, txHash := none },
        loading := false }

/-- A request succeeded: it did not throw and its body has status '1'. -/
def Response.succeeded {α : Type} : Response α → Bool
  | .threw _ => false
  | .json status _ _ => decide (status = "1")

/-- The alert is a balance alert: its message is the "Balance increased/decreased"
template. -/
def Alert.isBalanceAlert (a : Alert) : Bool :=
  match a.message with
  | .balanceChanged _ _ _ => true
  | _ => false

/-- The alert is a transaction alert: its message is the "New transaction"
template. -/
def Alert.isTransactionAlert (a : Alert) : Bool :=
  match a.message with
  | .newTransaction _ _ => true
  | _ => false

/-! ## Sample data

A wallet with three known transactions, and a fetch that returns a fourth one
sent by the wallet together with a balance of 2.5 ETH. -/

def sampleAddress : String := "0xAbCdEf0123456789aBcDeF0123456789abcdef01"

def sampleTx1 : Tx := { hash := "0x01", from_ := "0x1111111111111111111111111111111111111111",
                        value := 10 ^ 18 }

def sampleTx2 : Tx := { hash := "0x02", from_ := "0x2222222222222222222222222222222222222222",
                        value := 3 * 10 ^ 18 }

def sampleTx3 : Tx := { hash := "0x03", from_ := sampleAddress, value := 2 * 10 ^ 18 }

def sampleTx4 : Tx := { hash := "0xaa", from_ := "0xabcdef0123456789abcdef0123456789abcdef01",
                        value := 5 * 10 ^ 17 }

def sampleWallet : Wallet :=
  { address := sampleAddress, balance := 20000, txCount := 3,
    lastChecked := "2024-01-01T00:00:00.000Z",
    transactions := [sampleTx3, sampleTx2, sampleTx1] }

def sampleState : State :=
  { initialState with apiKey := "KEY", monitoredWallets := [sampleWallet] }

def sampleBalanceRes : Response Nat := .json "1" (some "OK") (25 * 10 ^ 17)

def sampleTxRes : Response (List Tx) :=
  .json "1" (some "OK") [sampleTx4, sampleTx3, sampleTx2, sampleTx1]

def sampleData : WalletData :=
  { balance := 25000, txCount := 4,
    transactions := [sampleTx4, sampleTx3, sampleTx2, sampleTx1] }

def sampleNow : String := "2024-01-01T00:00:30.000Z"

/-- A balance response equal to the stored balance of `sampleWallet`. -/
def sameBalanceRes : Response Nat := .json "1" (some "OK") (2 * 10 ^ 18)

/-- A transaction page identical to the one stored in `sampleWallet`. -/
def sameTxRes : Response (List Tx) := .json "1" (some "OK") [sampleTx3, sampleTx2, sampleTx1]

/-- The fetch result identical to the snapshot stored in `sampleWallet`. -/
def sameData : WalletData :=
  { balance := 20000, txCount := 3, transactions := [sampleTx3, sampleTx2, sampleTx1] }

/-- A transaction page shorter than the one stored in `sampleWallet`. -/
def shorterTxRes : Response (List Tx) := .json "1" (some "OK") [sampleTx2, sampleTx1]

/-- The fetch result with the stored balance and a lower txCount. -/
def shorterData : WalletData :=
  { balance := 20000, txCount := 2, transactions := [sampleTx2, sampleTx1] }

/-- A response body with a non-success status. -/
def rejectedBalanceRes : Response Nat := .json "0" (some "NOTOK") 0

/-- The state in which the mixed-case `sampleAddress` is about to be added. -/
def sampleAddState : State :=
  { initialState with walletAddress := sampleAddress, apiKey := "KEY" }

/-- The `offset=10` parameter of the `txlist` request of `fetchWalletData`: the
largest number of transactions the ledger puts on the page it returns. -/
def pageSize : Nat := 10

/-- A transaction of 1 ETH with the given hash, from a third party. -/
def sampleTxOf (hash : String) : Tx :=
  { hash := hash, from_ := "0x1111111111111111111111111111111111111111", value := 10 ^ 18 }

/-- A full page of ten transactions, as stored. -/
def storedPage : List Tx :=
  ["0x0a", "0x09", "0x08", "0x07", "0x06", "0x05", "0x04", "0x03", "0x02", "0x01"].map
    sampleTxOf

/-- A full page of ten transactions none of which is in `storedPage`. -/
def freshPage : List Tx :=
  ["0x14", "0x13", "0x12", "0x11", "0x10", "0x0f", "0x0e", "0x0d", "0x0c", "0x0b"].map
    sampleTxOf

/-- A wallet whose stored txCount is the page size. -/
def fullWallet : Wallet :=
  { address := sampleAddress, balance := 20000, txCount := 10,
    lastChecked := "2024-01-01T00:00:00.000Z", transactions := storedPage }

/-- The state monitoring `fullWallet`, with the initial thresholds (every
transaction qualifies). -/
def fullState : State :=
  { initialState with apiKey := "KEY", monitoredWallets := [fullWallet] }

/-- The transaction response carrying `freshPage`. -/
def freshPageRes : Response (List Tx) := .json "1" (some "OK") freshPage

/-- The fetch result for `sameBalanceRes` and `freshPageRes`. -/
def freshPageData : WalletData :=
  { balance := 20000, txCount := 10, transactions := freshPage }

/-! ## General lemmas -/

theorem parseFloat_injective {a b : Nat} (h : parseFloat a = parseFloat b) : a = b := by
  simp only [parseFloat, JSNumber.finite.injEq] at h
  have h2 : (a : ℚ) = (b : ℚ) := by
    have h3 := congrArg (fun x : ℚ => x * 10000) h
    simpa using h3
  exact_mod_cast h2

theorem strictNe_parseFloat (a b : Nat) :
    JSNumber.strictNe (parseFloat a) (parseFloat b) = true ↔ a ≠ b := by
  constructor
  · intro h hab
    subst hab
    simp [JSNumber.strictNe, parseFloat] at h
  · intro h
    have : parseFloat a ≠ parseFloat b := fun e => h (parseFloat_injective e)
    simp only [parseFloat] at this ⊢
    simp only [JSNumber.strictNe, decide_eq_true_eq]
    intro e
    exact this (by rw [e])

theorem gt_sub_parseFloat (a b : Nat) :
    JSNumber.gt (JSNumber.sub (parseFloat a) (parseFloat b)) (.finite 0) = true ↔ b < a := by
  simp only [parseFloat, JSNumber.sub, JSNumber.gt, decide_eq_true_eq]
  rw [sub_pos, div_lt_div_iff_of_pos_right (by norm_num : (0 : ℚ) < 10000)]
  exact_mod_cast Iff.rfl

theorem take_append_take (n : Nat) (xs ys : List Alert) :
    (xs ++ ys.take n).take n = (xs ++ ys).take n := by
  rw [List.take_append_eq_append_take, List.take_append_eq_append_take, List.take_take]
  congr 2
  omega

theorem pushAll_cons (log : List Alert) (a : Alert) (emitted : List Alert) :
    pushAll log (a :: emitted) = (emitted.reverse ++ a :: log).take 50 := by
  induction emitted generalizing log a with
  | nil => simp [pushAll, addAlert]
  | cons b rest ih =>
    have h : pushAll log (a :: b :: rest) = pushAll (addAlert log a) (b :: rest) := rfl
    rw [h, ih, addAlert]
    have h2 : rest.reverse ++ b :: List.take 50 (a :: log) =
        (rest.reverse ++ [b]) ++ List.take 50 (a :: log) := by simp
    rw [h2, take_append_take]
    simp

theorem pushAll_length_le (log emitted : List Alert) (h : log.length ≤ 50) :
    (pushAll log emitted).length ≤ 50 := by
  cases emitted with
  | nil => exact h
  | cons a rest =>
    rw [pushAll_cons, List.length_take]
    exact Nat.min_le_left _ _

theorem balanceAlerts_eq (wallet : Wallet) (data : WalletData) (now : String) :
    balanceAlerts wallet data now =
      if data.balance ≠ wallet.balance then
        [{ type := if wallet.balance < data.balance then .success else .warning,
           message := .balanceChanged (decide (wallet.balance < data.balance))
             (JSNumber.abs (JSNumber.sub (parseFloat data.balance) (parseFloat wallet.balance)))
             (shortenAddress wallet.address),
           timestamp := now, txHash := none }]
      else [] := by
  unfold balanceAlerts
  by_cases h : data.balance = wallet.balance
  · have h1 : JSNumber.strictNe (parseFloat wallet.balance) (parseFloat data.balance) = false := by
      rw [h, ← Bool.not_eq_true, strictNe_parseFloat]
      simp
    simp only [h1]
    simp [h]
  · have h1 : JSNumber.strictNe (parseFloat wallet.balance) (parseFloat data.balance) = true :=
      (strictNe_parseFloat _ _).2 (Ne.symm h)
    by_cases h2 : wallet.balance < data.balance
    · have h3 := (gt_sub_parseFloat data.balance wallet.balance).2 h2
      simp [h1, h, h2, h3]
    · have h3 : JSNumber.gt (JSNumber.sub (parseFloat data.balance) (parseFloat wallet.balance))
          (.finite 0) = false := by
        rw [← Bool.not_eq_true, gt_sub_parseFloat]
        exact h2
      simp [h1, h, h2, h3]

theorem txAlert_isSome_iff (th : Thresholds) (wallet : Wallet) (now : String) (tx : Tx) :
    (txAlert th wallet now tx).isSome = true ↔
      (th.alertOnAnyTx = true ∨
        (JSNumber.ge (parseFloat (toFixed4 tx.value)) th.minTxValue = true ∧
          JSNumber.le (parseFloat (toFixed4 tx.value)) th.maxTxValue = true)) := by
  unfold txAlert
  by_cases h : (th.alertOnAnyTx ||
      (JSNumber.ge (parseFloat (toFixed4 tx.value)) th.minTxValue &&
        JSNumber.le (parseFloat (toFixed4 tx.value)) th.maxTxValue)) = true
  · simp only [h, if_true, Option.isSome_some, true_iff]
    simpa [Bool.or_eq_true, Bool.and_eq_true] using h
  · simp only [h, if_false, Option.isSome_none, Bool.false_eq_true, false_iff]
    simpa [Bool.or_eq_true, Bool.and_eq_true] using h

theorem refreshWallet_ok (s : State) (index : Nat) (old : Wallet)
    (balanceRes : Response Nat) (txRes : Response (List Tx)) (fresh : WalletData) (now : String)
    (hw : s.monitoredWallets[index]? = some old)
    (hf : fetchWalletData balanceRes txRes = .ok fresh) :
    refreshWallet s index balanceRes txRes now =
      { s with
        monitoredWallets := s.monitoredWallets.set index (updatedWallet old fresh now),
        alerts := pushAll s.alerts (refreshAlerts s.thresholds old fresh now),
        loading := false } := by
  simp only [refreshWallet, hw, hf]

theorem newTxs_eq_take (old : Wallet) (fresh : WalletData) :
    newTxs old fresh =
      fresh.transactions.take (max 0 ((fresh.txCount : Int) - (old.txCount : Int))).toNat := by
  unfold newTxs
  by_cases h : fresh.txCount > old.txCount
  · rw [if_pos h]
    congr 1
    omega
  · rw [if_neg h]
    have h0 : (max 0 ((fresh.txCount : Int) - (old.txCount : Int))).toNat = 0 := by omega
    rw [h0, List.take_zero]

theorem txAlert_eq_some (th : Thresholds) (wallet : Wallet) (now : String) (tx : Tx) (a : Alert)
    (h : txAlert th wallet now tx = some a) :
    a = { type := .info,
          message := .newTransaction (parseFloat (toFixed4 tx.value))
            (if toLowerCase tx.from_ = toLowerCase wallet.address then .sent else .received),
          timestamp := now, txHash := some tx.hash } := by
  simp only [txAlert] at h
  by_cases hc : (th.alertOnAnyTx ||
      (JSNumber.ge (parseFloat (toFixed4 tx.value)) th.minTxValue &&
        JSNumber.le (parseFloat (toFixed4 tx.value)) th.maxTxValue)) = true
  · rw [if_pos hc] at h
    exact (Option.some.inj h).symm
  · rw [if_neg hc] at h
    exact absurd h (by simp)

theorem mem_transactionAlerts (th : Thresholds) (wallet : Wallet) (data : WalletData)
    (now : String) (a : Alert) (h : a ∈ transactionAlerts th wallet data now) :
    ∃ tx ∈ newTxs wallet data, txAlert th wallet now tx = some a := by
  unfold transactionAlerts at h
  exact List.mem_filterMap.1 h

theorem mem_balanceAlerts (wallet : Wallet) (data : WalletData) (now : String) (a : Alert)
    (h : a ∈ balanceAlerts wallet data now) :
    data.balance ≠ wallet.balance ∧
      a = { type := if wallet.balance < data.balance then .success else .warning,
            message := .balanceChanged (decide (wallet.balance < data.balance))
              (JSNumber.abs (JSNumber.sub (parseFloat data.balance) (parseFloat wallet.balance)))
              (shortenAddress wallet.address),
            timestamp := now, txHash := none } := by
  rw [balanceAlerts_eq] at h
  by_cases hb : data.balance = wallet.balance
  · simp [hb] at h
  · rw [if_pos hb] at h
    exact ⟨hb, List.mem_singleton.1 h⟩

theorem filter_isBalanceAlert (th : Thresholds) (wallet : Wallet) (data : WalletData)
    (now : String) :
    (refreshAlerts th wallet data now).filter Alert.isBalanceAlert =
      balanceAlerts wallet data now := by
  unfold refreshAlerts
  rw [List.filter_append]
  have h1 : (balanceAlerts wallet data now).filter Alert.isBalanceAlert =
      balanceAlerts wallet data now := by
    rw [List.filter_eq_self]
    intro a ha
    rw [(mem_balanceAlerts wallet data now a ha).2]
    rfl
  have h2 : (transactionAlerts th wallet data now).filter Alert.isBalanceAlert = [] := by
    rw [List.filter_eq_nil_iff]
    intro a ha
    obtain ⟨tx, _, htx⟩ := mem_transactionAlerts th wallet data now a ha
    rw [txAlert_eq_some th wallet now tx a htx]
    simp [Alert.isBalanceAlert]
  rw [h1, h2, List.append_nil]

theorem filter_isTransactionAlert (th : Thresholds) (wallet : Wallet) (data : WalletData)
    (now : String) :
    (refreshAlerts th wallet data now).filter Alert.isTransactionAlert =
      transactionAlerts th wallet data now := by
  unfold refreshAlerts
  rw [List.filter_append]
  have h1 : (balanceAlerts wallet data now).filter Alert.isTransactionAlert = [] := by
    rw [List.filter_eq_nil_iff]
    intro a ha
    rw [(mem_balanceAlerts wallet data now a ha).2]
    simp [Alert.isTransactionAlert]
  have h2 : (transactionAlerts th wallet data now).filter Alert.isTransactionAlert =
      transactionAlerts th wallet data now := by
    rw [List.filter_eq_self]
    intro a ha
    obtain ⟨tx, _, htx⟩ := mem_transactionAlerts th wallet data now a ha
    rw [txAlert_eq_some th wallet now tx a htx]
    rfl
  rw [h1, h2, List.nil_append]

theorem filter_info (th : Thresholds) (wallet : Wallet) (data : WalletData) (now : String) :
    (refreshAlerts th wallet data now).filter (fun a => decide (a.type = .info)) =
      transactionAlerts th wallet data now := by
  unfold refreshAlerts
  rw [List.filter_append]
  have h1 : (balanceAlerts wallet data now).filter (fun a => decide (a.type = .info)) = [] := by
    rw [List.filter_eq_nil_iff]
    intro a ha
    rw [(mem_balanceAlerts wallet data now a ha).2]
    by_cases hlt : wallet.balance < data.balance <;> simp [hlt]
  have h2 : (transactionAlerts th wallet data now).filter (fun a => decide (a.type = .info)) =
      transactionAlerts th wallet data now := by
    rw [List.filter_eq_self]
    intro a ha
    obtain ⟨tx, _, htx⟩ := mem_transactionAlerts th wallet data now a ha
    rw [txAlert_eq_some th wallet now tx a htx]
    rfl
  rw [h1, h2, List.nil_append]

/-! ## The binary64 operations of line 106 -/

theorem bitLengthAux_eq_log2 (fuel : Nat) : ∀ n, n ≠ 0 → n ≤ fuel →
    bitLengthAux fuel n = Nat.log2 n + 1 := by
  induction fuel with
  | zero =>
    intro n hn hle
    omega
  | succ fuel ih =>
    intro n hn hle
    rw [bitLengthAux, if_neg hn]
    by_cases h2 : 2 ≤ n
    · have hhalf : n / 2 ≠ 0 := by omega
      rw [ih (n / 2) hhalf (by omega)]
      conv_rhs => rw [Nat.log2]
      rw [if_pos h2]
    · have h1 : n = 1 := by omega
      subst h1
      have h0 : bitLengthAux fuel (1 / 2) = 0 := by
        cases fuel <;> simp [bitLengthAux]
      rw [h0]
      conv_rhs => rw [Nat.log2]
      simp

theorem bitLength_bounds (n : Nat) (hn : n ≠ 0) :
    2 ^ (bitLength n - 1) ≤ n ∧ n < 2 ^ bitLength n := by
  have h : bitLength n = Nat.log2 n + 1 := bitLengthAux_eq_log2 n n hn (Nat.le_refl n)
  rw [h]
  exact ⟨Nat.log2_self_le hn, Nat.lt_log2_self⟩

theorem Double.den_pos (x : Double) : 0 < x.den := by
  unfold Double.den
  split
  · exact Nat.pos_pow_of_pos _ (by norm_num)
  · exact Nat.one_pos

theorem Double.val_mk (m : Nat) (e : Int) : Double.val ⟨m, e⟩ = (m : ℚ) * (2 : ℚ) ^ e := by
  unfold Double.val Double.num Double.den
  obtain ⟨k, rfl | rfl⟩ := Int.eq_nat_or_neg e
  · have h : ¬ ((k : Int) < 0) := by omega
    simp only [h, if_false, Int.toNat_ofNat, zpow_natCast]
    push_cast
    simp
  · by_cases hk : k = 0
    · subst hk
      simp
    · have h : (-(k : Int)) < 0 := by omega
      simp only [h, if_true, neg_neg, Int.toNat_ofNat, zpow_neg, zpow_natCast]
      push_cast
      rw [div_eq_mul_inv]

theorem scaled_ratio (num den : Nat) (e : Int) :
    (scaledNum num e : ℚ) / (scaledDen den e : ℚ) = (num : ℚ) / (den : ℚ) / (2 : ℚ) ^ e := by
  unfold scaledNum scaledDen
  obtain ⟨k, rfl | rfl⟩ := Int.eq_nat_or_neg e
  · have h : ¬ ((k : Int) < 0) := by omega
    simp only [h, if_false, Int.toNat_ofNat, zpow_natCast]
    push_cast
    rw [div_div]
  · by_cases hk : k = 0
    · subst hk
      simp
    · have h : (-(k : Int)) < 0 := by omega
      simp only [h, if_true, neg_neg, Int.toNat_ofNat, zpow_neg, zpow_natCast]
      push_cast
      rw [div_inv_eq_mul, div_mul_eq_mul_div]


theorem round_step (N D : Nat) (hD : 0 < D) :
    |((if 2 * (N % D) > D ∨ (2 * (N % D) = D ∧ N / D % 2 = 1) then N / D + 1 else N / D : Nat) : ℚ)
      - (N : ℚ) / (D : ℚ)| ≤ 1 / 2 := by
  have hDq : (0 : ℚ) < (D : ℚ) := by exact_mod_cast hD
  have hdiv : (N : ℚ) = (D : ℚ) * ((N / D : Nat) : ℚ) + ((N % D : Nat) : ℚ) := by
    exact_mod_cast (Nat.div_add_mod N D).symm
  have hr : ((N % D : Nat) : ℚ) < (D : ℚ) := by exact_mod_cast Nat.mod_lt N hD
  have hr0 : (0 : ℚ) ≤ ((N % D : Nat) : ℚ) := Nat.cast_nonneg _
  have hq : (N : ℚ) / (D : ℚ) = ((N / D : Nat) : ℚ) + ((N % D : Nat) : ℚ) / (D : ℚ) := by
    rw [hdiv]
    field_simp
    ring
  by_cases hc : 2 * (N % D) > D ∨ (2 * (N % D) = D ∧ N / D % 2 = 1)
  · rw [if_pos hc, hq]
    have h2 : D ≤ 2 * (N % D) := by
      rcases hc with h | ⟨h, _⟩ <;> omega
    have h2q : (D : ℚ) ≤ 2 * ((N % D : Nat) : ℚ) := by exact_mod_cast h2
    have hfrac : (1 : ℚ) / 2 ≤ ((N % D : Nat) : ℚ) / (D : ℚ) := by
      rw [le_div_iff₀ hDq]
      linarith
    have hfrac1 : ((N % D : Nat) : ℚ) / (D : ℚ) < 1 := by
      rw [div_lt_one hDq]
      exact hr
    push_cast
    rw [abs_le]
    constructor <;> linarith
  · rw [if_neg hc, hq]
    have h2 : 2 * (N % D) ≤ D := by
      by_contra hlt
      exact hc (Or.inl (by omega))
    have h2q : 2 * ((N % D : Nat) : ℚ) ≤ (D : ℚ) := by exact_mod_cast h2
    have hfrac : ((N % D : Nat) : ℚ) / (D : ℚ) ≤ 1 / 2 := by
      rw [div_le_iff₀ hDq]
      linarith
    have hfrac0 : (0 : ℚ) ≤ ((N % D : Nat) : ℚ) / (D : ℚ) := div_nonneg hr0 hDq.le
    rw [abs_le]
    constructor <;> linarith

theorem scaledDen_pos (den : Nat) (e : Int) (hden : 0 < den) : 0 < scaledDen den e := by
  unfold scaledDen
  split
  · exact hden
  · exact Nat.mul_pos hden (Nat.pos_pow_of_pos _ (by norm_num))

theorem roundToDouble_eq (num den : Nat) (hnum : num ≠ 0) :
    roundToDouble num den =
      ⟨if 2 * (scaledNum num (roundExp num den) % scaledDen den (roundExp num den)) >
            scaledDen den (roundExp num den) ∨
          (2 * (scaledNum num (roundExp num den) % scaledDen den (roundExp num den)) =
              scaledDen den (roundExp num den) ∧
            scaledNum num (roundExp num den) / scaledDen den (roundExp num den) % 2 = 1)
        then scaledNum num (roundExp num den) / scaledDen den (roundExp num den) + 1
        else scaledNum num (roundExp num den) / scaledDen den (roundExp num den),
       roundExp num den⟩ := by
  have hite : ∀ (c : Prop) [Decidable c] (m : Nat) (e : Int),
      (if c then (⟨m + 1, e⟩ : Double) else ⟨m, e⟩) = ⟨if c then m + 1 else m, e⟩ := by
    intro c _ m e
    split <;> rfl
  unfold roundToDouble
  rw [if_neg hnum]
  exact hite _ _ _

theorem roundExp_low (num den : Nat) (hnum : 0 < num) (hden : 0 < den) :
    (2 : ℚ) ^ 52 ≤ (num : ℚ) / (den : ℚ) / (2 : ℚ) ^ roundExp num den := by
  have hdq : (0 : ℚ) < (den : ℚ) := by exact_mod_cast hden
  have hnq : (0 : ℚ) < (num : ℚ) := by exact_mod_cast hnum
  unfold roundExp
  by_cases hc : scaledNum num ((bitLength num : Int) - (bitLength den : Int) - 53) /
      scaledDen den ((bitLength num : Int) - (bitLength den : Int) - 53) < 2 ^ 53
  · rw [if_pos hc]
    obtain ⟨hn1, _⟩ := bitLength_bounds num (by omega)
    obtain ⟨_, hd2⟩ := bitLength_bounds den (by omega)
    have hbn : 1 ≤ bitLength num := by
      by_contra h
      have h0 : bitLength num = 0 := by omega
      rw [h0] at hn1
      have := (bitLength_bounds num (by omega)).2
      rw [h0] at this
      omega
    have hn1q : (2 : ℚ) ^ (bitLength num - 1) ≤ (num : ℚ) := by exact_mod_cast hn1
    have hd2q : (den : ℚ) ≤ (2 : ℚ) ^ (bitLength den) := by exact_mod_cast hd2.le
    have h2e : (0 : ℚ) < (2 : ℚ) ^ ((bitLength num : Int) - (bitLength den : Int) - 53) := by
      positivity
    rw [le_div_iff₀ h2e, le_div_iff₀ hdq]
    have hexp : (2 : ℚ) ^ 52 * (2 : ℚ) ^ ((bitLength num : Int) - (bitLength den : Int) - 53) *
        (2 : ℚ) ^ (bitLength den) = (2 : ℚ) ^ (bitLength num - 1) := by
      have h52 : (2 : ℚ) ^ 52 = (2 : ℚ) ^ (52 : Int) := by norm_cast
      rw [h52, ← zpow_natCast (2 : ℚ) (bitLength den), ← zpow_natCast (2 : ℚ) (bitLength num - 1),
        ← zpow_add₀ (by norm_num : (2 : ℚ) ≠ 0), ← zpow_add₀ (by norm_num : (2 : ℚ) ≠ 0)]
      congr 1
      omega
    calc (2 : ℚ) ^ 52 * (2 : ℚ) ^ ((bitLength num : Int) - (bitLength den : Int) - 53) * (den : ℚ)
        ≤ (2 : ℚ) ^ 52 * (2 : ℚ) ^ ((bitLength num : Int) - (bitLength den : Int) - 53) *
            (2 : ℚ) ^ (bitLength den) := by
          apply mul_le_mul_of_nonneg_left hd2q
          positivity
      _ = (2 : ℚ) ^ (bitLength num - 1) := hexp
      _ ≤ (num : ℚ) := hn1q
  · rw [if_neg hc]
    have hge : 2 ^ 53 ≤ scaledNum num ((bitLength num : Int) - (bitLength den : Int) - 53) /
        scaledDen den ((bitLength num : Int) - (bitLength den : Int) - 53) := by omega
    have hgeq : (2 : ℚ) ^ 53 ≤
        ((scaledNum num ((bitLength num : Int) - (bitLength den : Int) - 53) /
          scaledDen den ((bitLength num : Int) - (bitLength den : Int) - 53) : Nat) : ℚ) := by
      exact_mod_cast hge
    have hcast := @Nat.cast_div_le ℚ _
      (scaledNum num ((bitLength num : Int) - (bitLength den : Int) - 53))
      (scaledDen den ((bitLength num : Int) - (bitLength den : Int) - 53))
    rw [scaled_ratio] at hcast
    rw [zpow_add₀ (by norm_num : (2 : ℚ) ≠ 0), zpow_one, ← div_div]
    have h53 : (2 : ℚ) ^ 53 = 2 ^ 52 * 2 := by norm_num
    rw [le_div_iff₀ (by norm_num : (0 : ℚ) < 2), ← h53]
    exact le_trans hgeq hcast

theorem roundToDouble_error (num den : Nat) (hnum : 0 < num) (hden : 0 < den) :
    |(roundToDouble num den).val - (num : ℚ) / (den : ℚ)| ≤ (num : ℚ) / (den : ℚ) / 2 ^ 53 := by
  have hlow := roundExp_low num den hnum hden
  have hstep := round_step (scaledNum num (roundExp num den)) (scaledDen den (roundExp num den))
    (scaledDen_pos den _ hden)
  rw [scaled_ratio] at hstep
  rw [roundToDouble_eq num den (by omega), Double.val_mk]
  have h2e : (0 : ℚ) < (2 : ℚ) ^ roundExp num den := by positivity
  generalize (2 : ℚ) ^ roundExp num den = p at hlow hstep h2e ⊢
  generalize ((if 2 * (scaledNum num (roundExp num den) % scaledDen den (roundExp num den)) >
            scaledDen den (roundExp num den) ∨
          (2 * (scaledNum num (roundExp num den) % scaledDen den (roundExp num den)) =
              scaledDen den (roundExp num den) ∧
            scaledNum num (roundExp num den) / scaledDen den (roundExp num den) % 2 = 1)
        then scaledNum num (roundExp num den) / scaledDen den (roundExp num den) + 1
        else scaledNum num (roundExp num den) / scaledDen den (roundExp num den) : Nat) : ℚ) = m
    at hstep ⊢
  generalize (num : ℚ) / (den : ℚ) = q at hlow hstep ⊢
  -- |m - q / p| ≤ 1/2, 2^52 ≤ q / p  ⊢ |m * p - q| ≤ q / 2^53
  have hq : q = q / p * p := by field_simp
  have hS : (2 : ℚ) ^ 52 ≤ q / p := hlow
  generalize q / p = S at hq hS hstep
  rw [hq]
  have h1 : m * p - S * p = (m - S) * p := by ring
  rw [h1, abs_mul, abs_of_pos h2e]
  have h3 : S * p / 2 ^ 53 = S / 2 ^ 53 * p := by ring
  rw [h3]
  apply mul_le_mul_of_nonneg_right _ h2e.le
  have h4 : (1 : ℚ) / 2 ≤ S / 2 ^ 53 := by
    rw [le_div_iff₀ (by positivity)]
    norm_num at hS ⊢
    linarith
  exact le_trans hstep h4


theorem toFixed4_step (x : Double) :
    |(x.toFixed4 : ℚ) - 10 ^ 4 * x.val| ≤ 1 / 2 := by
  have hden := x.den_pos
  have hdq : (0 : ℚ) < (x.den : ℚ) := by exact_mod_cast hden
  have hB : 0 < 2 * x.den := by omega
  have h1 : 2 * x.den * x.toFixed4 ≤ 2 * x.num * 10 ^ 4 + x.den := by
    unfold Double.toFixed4
    exact Nat.mul_div_le _ _
  have h2 : 2 * x.num * 10 ^ 4 + x.den < 2 * x.den * (x.toFixed4 + 1) := by
    unfold Double.toFixed4
    exact Nat.lt_mul_div_succ _ hB
  have h1q : 2 * (x.den : ℚ) * (x.toFixed4 : ℚ) ≤ 2 * (x.num : ℚ) * 10 ^ 4 + (x.den : ℚ) := by
    exact_mod_cast h1
  have h2q : 2 * (x.num : ℚ) * 10 ^ 4 + (x.den : ℚ) < 2 * (x.den : ℚ) * ((x.toFixed4 : ℚ) + 1) := by
    exact_mod_cast h2
  have hval : (x.num : ℚ) = x.val * (x.den : ℚ) := by
    unfold Double.val
    field_simp
  rw [hval] at h1q h2q
  generalize x.val = v at h1q h2q ⊢
  generalize (x.toFixed4 : ℚ) = n at h1q h2q ⊢
  generalize (x.den : ℚ) = d at hdq h1q h2q
  have e1 : 2 * d * n ≤ d * (2 * (10 ^ 4 * v) + 1) := by linarith
  have e2 : d * (2 * (10 ^ 4 * v) + 1) < d * (2 * (n + 1)) := by linarith
  have e1' := le_of_mul_le_mul_left (by linarith : d * (2 * n) ≤ d * (2 * (10 ^ 4 * v) + 1)) hdq
  have e2' := lt_of_mul_lt_mul_left e2 hdq.le
  rw [abs_le]
  constructor <;> linarith

/-- The 4-decimal value computed at line 106 is the wei amount divided by 1e18,
up to half a unit of the fourth decimal and the rounding of the two binary64
operations. -/
theorem toFixed4_precision (wei : Nat) :
    |(toFixed4 wei : ℚ) / 10 ^ 4 - (wei : ℚ) / 10 ^ 18| ≤
      1 / 20000 + (wei : ℚ) / 10 ^ 18 / 2 ^ 51 := by
  by_cases h0 : wei = 0
  · subst h0
    have hz : toFixed4 0 = 0 := by decide
    rw [hz]
    norm_num
  have hw : 0 < wei := Nat.pos_of_ne_zero h0
  have hwq : (0 : ℚ) < (wei : ℚ) := by exact_mod_cast hw
  have ha := roundToDouble_error wei 1 hw Nat.one_pos
  have haval : (0 : ℚ) < (parseInt wei).val := by
    have h := (abs_le.1 ha).1
    unfold parseInt
    have h53 : (wei : ℚ) / ((1 : Nat) : ℚ) / 2 ^ 53 < (wei : ℚ) / ((1 : Nat) : ℚ) := by
      apply div_lt_self
      · simpa using hwq
      · norm_num
    linarith
  have hanum : 0 < (parseInt wei).num := by
    by_contra hn
    have hn0 : (parseInt wei).num = 0 := by omega
    unfold Double.val at haval
    rw [hn0] at haval
    simp at haval
  have hden18 : 0 < (parseInt wei).den * 10 ^ 18 :=
    Nat.mul_pos (parseInt wei).den_pos (by norm_num)
  have hx := roundToDouble_error (parseInt wei).num ((parseInt wei).den * 10 ^ 18) hanum hden18
  have hratio : ((parseInt wei).num : ℚ) / (((parseInt wei).den * 10 ^ 18 : Nat) : ℚ) =
      (parseInt wei).val / 10 ^ 18 := by
    unfold Double.val
    rw [Nat.cast_mul, div_div]
    norm_num
  rw [hratio] at hx
  have hn := toFixed4_step (parseInt wei).divE18
  have hdef : toFixed4 wei = (parseInt wei).divE18.toFixed4 := rfl
  have hxdef : (parseInt wei).divE18 =
      roundToDouble (parseInt wei).num ((parseInt wei).den * 10 ^ 18) := rfl
  rw [hdef]
  rw [← hxdef] at hx
  have ha' : |(parseInt wei).val - (wei : ℚ)| ≤ (wei : ℚ) / 2 ^ 53 := by
    have : (parseInt wei) = roundToDouble wei 1 := rfl
    rw [this]
    simpa using ha
  generalize (parseInt wei).divE18.val = X at hx hn
  generalize ((parseInt wei).divE18.toFixed4 : ℚ) = n at hn ⊢
  generalize (parseInt wei).val = A at hx ha' haval
  generalize (wei : ℚ) = W at ha' hwq ⊢
  rw [abs_le] at hx hn ha' ⊢
  obtain ⟨hx1, hx2⟩ := hx
  obtain ⟨hn1, hn2⟩ := hn
  obtain ⟨ha1, ha2⟩ := ha'
  norm_num at hx1 hx2 hn1 hn2 ha1 ha2 ⊢
  constructor <;> linarith


theorem bitLength_pos (n : Nat) (hn : 0 < n) : 1 ≤ bitLength n := by
  by_contra h
  have h0 : bitLength n = 0 := by omega
  have h2 := (bitLength_bounds n (by omega)).2
  rw [h0] at h2
  omega

theorem roundExp_high (num den : Nat) (hnum : 0 < num) (hden : 0 < den) :
    (num : ℚ) / (den : ℚ) / (2 : ℚ) ^ roundExp num den < (2 : ℚ) ^ 53 := by
  have hdq : (0 : ℚ) < (den : ℚ) := by exact_mod_cast hden
  unfold roundExp
  by_cases hc : scaledNum num ((bitLength num : Int) - (bitLength den : Int) - 53) /
      scaledDen den ((bitLength num : Int) - (bitLength den : Int) - 53) < 2 ^ 53
  · rw [if_pos hc]
    rw [← scaled_ratio]
    have hD := scaledDen_pos den ((bitLength num : Int) - (bitLength den : Int) - 53) hden
    have hDq : (0 : ℚ) < (scaledDen den ((bitLength num : Int) - (bitLength den : Int) - 53) : ℚ) := by
      exact_mod_cast hD
    rw [div_lt_iff₀ hDq]
    have hlt := (Nat.div_lt_iff_lt_mul hD).1 hc
    exact_mod_cast hlt
  · rw [if_neg hc]
    obtain ⟨_, hn2⟩ := bitLength_bounds num (by omega)
    obtain ⟨hd1, _⟩ := bitLength_bounds den (by omega)
    have hbd := bitLength_pos den hden
    have hn2q : (num : ℚ) < (2 : ℚ) ^ (bitLength num) := by exact_mod_cast hn2
    have hd1q : (2 : ℚ) ^ (bitLength den - 1) ≤ (den : ℚ) := by exact_mod_cast hd1
    have h2e : (0 : ℚ) < (2 : ℚ) ^ ((bitLength num : Int) - (bitLength den : Int) - 53 + 1) := by
      positivity
    rw [div_lt_iff₀ h2e, div_lt_iff₀ hdq]
    have hexp : (2 : ℚ) ^ 53 * (2 : ℚ) ^ ((bitLength num : Int) - (bitLength den : Int) - 53 + 1) *
        (2 : ℚ) ^ (bitLength den - 1) = (2 : ℚ) ^ (bitLength num) := by
      have h53 : (2 : ℚ) ^ 53 = (2 : ℚ) ^ (53 : Int) := by norm_cast
      rw [h53, ← zpow_natCast (2 : ℚ) (bitLength den - 1), ← zpow_natCast (2 : ℚ) (bitLength num),
        ← zpow_add₀ (by norm_num : (2 : ℚ) ≠ 0), ← zpow_add₀ (by norm_num : (2 : ℚ) ≠ 0)]
      congr 1
      omega
    calc (num : ℚ) < (2 : ℚ) ^ (bitLength num) := hn2q
      _ = (2 : ℚ) ^ 53 * (2 : ℚ) ^ ((bitLength num : Int) - (bitLength den : Int) - 53 + 1) *
            (2 : ℚ) ^ (bitLength den - 1) := hexp.symm
      _ ≤ (2 : ℚ) ^ 53 * (2 : ℚ) ^ ((bitLength num : Int) - (bitLength den : Int) - 53 + 1) *
            (den : ℚ) := by
          apply mul_le_mul_of_nonneg_left hd1q
          positivity

/-- The significand chosen by `roundToDouble` has 53 binary digits (or is 2 ^ 53,
when rounding carries). -/
theorem roundToDouble_mant (num den : Nat) (hnum : 0 < num) (hden : 0 < den) :
    2 ^ 52 ≤ (roundToDouble num den).mant ∧ (roundToDouble num den).mant ≤ 2 ^ 53 := by
  have hlow := roundExp_low num den hnum hden
  have hhigh := roundExp_high num den hnum hden
  rw [← scaled_ratio] at hlow hhigh
  have hD := scaledDen_pos den (roundExp num den) hden
  have hDq : (0 : ℚ) < (scaledDen den (roundExp num den) : ℚ) := by exact_mod_cast hD
  rw [le_div_iff₀ hDq] at hlow
  rw [div_lt_iff₀ hDq] at hhigh
  have hlowN : 2 ^ 52 * scaledDen den (roundExp num den) ≤ scaledNum num (roundExp num den) := by
    exact_mod_cast hlow
  have hhighN : scaledNum num (roundExp num den) < 2 ^ 53 * scaledDen den (roundExp num den) := by
    exact_mod_cast hhigh
  have h1 : 2 ^ 52 ≤ scaledNum num (roundExp num den) / scaledDen den (roundExp num den) :=
    (Nat.le_div_iff_mul_le hD).2 hlowN
  have h2 : scaledNum num (roundExp num den) / scaledDen den (roundExp num den) < 2 ^ 53 :=
    (Nat.div_lt_iff_lt_mul hD).2 hhighN
  have hite : ∀ (c : Prop) [Decidable c] (m : Nat), 2 ^ 52 ≤ m → m < 2 ^ 53 →
      2 ^ 52 ≤ (if c then m + 1 else m) ∧ (if c then m + 1 else m) ≤ 2 ^ 53 := by
    intro c _ m hm1 hm2
    split <;> omega
  rw [roundToDouble_eq num den (by omega)]
  exact hite _ _ h1 h2

/-! ## Values on the sample data -/

set_option maxRecDepth 8192 in
theorem sample_fetch : fetchWalletData sampleBalanceRes sampleTxRes = .ok sampleData := rfl

set_option maxRecDepth 8192 in
theorem same_fetch : fetchWalletData sameBalanceRes sameTxRes = .ok sameData := rfl

set_option maxRecDepth 8192 in
theorem shorter_fetch : fetchWalletData sameBalanceRes shorterTxRes = .ok shorterData := rfl

set_option maxRecDepth 8192 in
theorem freshPage_fetch : fetchWalletData sameBalanceRes freshPageRes = .ok freshPageData := rfl

/-- The line-106 value of 0.2 ETH is 0.2000. -/
theorem toFixed4_fifth : toFixed4 (2 * 10 ^ 17) = 2000 := by decide

/-- The line-106 value of 0.5 ETH is 0.5000. -/
theorem toFixed4_half : toFixed4 (5 * 10 ^ 17) = 5000 := by decide

/-- The line-106 value of 0.00015 ETH is 0.0001: the double nearest to 0.00015
lies below it. -/
theorem toFixed4_below_tie : toFixed4 150000000000000 = 1 := by decide

set_option maxRecDepth 8192 in
/-- The line-106 value of 100.00005 ETH is 100.0000: the double nearest to
100.00005 lies below it. -/
theorem toFixed4_hundred : toFixed4 100000050000000000000 = 1000000 := by decide

theorem fetchWalletData_error_of_failed (balanceRes : Response Nat) (txRes : Response (List Tx))
    (hfail : balanceRes.succeeded = false ∨ txRes.succeeded = false) :
    ∃ reason, fetchWalletData balanceRes txRes = .error reason := by
  unfold fetchWalletData
  cases balanceRes with
  | threw r => exact ⟨r, rfl⟩
  | json status message result =>
    by_cases h1 : status = "1"
    · cases txRes with
      | threw r => exact ⟨r, by simp [h1]⟩
      | json txStatus txMessage txResult =>
        by_cases h2 : txStatus = "1"
        · simp [Response.succeeded, h1, h2] at hfail
        · exact ⟨orElse txMessage "Failed to fetch transactions", by simp [h1, h2]⟩
    · exact ⟨orElse message "Failed to fetch balance", by simp [h1]⟩

theorem fetchWalletData_ok_of_succeeded (balanceRes : Response Nat) (txRes : Response (List Tx))
    (h1 : balanceRes.succeeded = true) (h2 : txRes.succeeded = true) :
    ∃ data, fetchWalletData balanceRes txRes = .ok data ∧
      data.txCount = data.transactions.length := by
  unfold fetchWalletData
  cases balanceRes with
  | threw r => simp [Response.succeeded] at h1
  | json status message result =>
    cases txRes with
    | threw r => simp [Response.succeeded] at h2
    | json txStatus txMessage txResult =>
      simp only [Response.succeeded, decide_eq_true_eq] at h1 h2
      exact ⟨{ balance := toFixed4 result, txCount := txResult.length,
               transactions := txResult }, by simp [h1, h2], rfl⟩

/-- The sample run: the balance goes from 2.0000 to 2.5000 and one new
transaction of 0.5 ETH, sent by the wallet, is on top of the fetched page.  The
run passes one `success` balance alert and one `info` alert marked `sent`. -/
theorem sample_refreshAlerts :
    refreshAlerts defaultThresholds sampleWallet sampleData sampleNow =
      [{ type := .success,
         message := .balanceChanged true (.finite (1 / 2)) "0xAbCd...ef01",
         timestamp := sampleNow, txHash := none },
       { type := .info,
         message := .newTransaction (.finite (1 / 2)) .sent,
         timestamp := sampleNow, txHash := some "0xaa" }] := by
  have hb : balanceAlerts sampleWallet sampleData sampleNow =
      [{ type := .success,
         message := .balanceChanged true (.finite (1 / 2)) "0xAbCd...ef01",
         timestamp := sampleNow, txHash := none }] := by
    rw [balanceAlerts_eq]
    have h1 : sampleData.balance ≠ sampleWallet.balance := by decide
    have h2 : sampleWallet.balance < sampleData.balance := by decide
    rw [if_pos h1, if_pos h2]
    have h3 : shortenAddress sampleWallet.address = "0xAbCd...ef01" := by decide
    have h4 : JSNumber.abs (JSNumber.sub (parseFloat sampleData.balance)
        (parseFloat sampleWallet.balance)) = .finite (1 / 2) := by
      simp only [parseFloat, JSNumber.sub, JSNumber.abs, sampleData, sampleWallet]
      norm_num
    rw [h3, h4]
    simp [h2]
  have hn : newTxs sampleWallet sampleData = [sampleTx4] := by decide
  have ht : txAlert defaultThresholds sampleWallet sampleNow sampleTx4 =
      some { type := .info, message := .newTransaction (.finite (1 / 2)) .sent,
             timestamp := sampleNow, txHash := some "0xaa" } := by
    have hl : toLowerCase sampleTx4.from_ = toLowerCase sampleWallet.address := by decide
    have hv : parseFloat (toFixed4 sampleTx4.value) = .finite (1 / 2) := by
      have h5 : toFixed4 sampleTx4.value = 5000 := toFixed4_half
      rw [h5]
      simp only [parseFloat]
      norm_num
    simp only [txAlert, hl, hv, defaultThresholds]
    rfl
  unfold refreshAlerts transactionAlerts
  rw [hb, hn]
  simp [ht]

theorem fetchWalletData_txCount (balanceRes : Response Nat) (txRes : Response (List Tx))
    (data : WalletData) (h : fetchWalletData balanceRes txRes = .ok data) :
    data.txCount = data.transactions.length := by
  unfold fetchWalletData at h
  cases balanceRes with
  | threw r => exact absurd h (by simp)
  | json status message result =>
    cases txRes with
    | threw r =>
      by_cases h1 : status = "1"
      · simp [h1] at h
      · simp [h1] at h
    | json txStatus txMessage txResult =>
      by_cases h1 : status = "1"
      · by_cases h2 : txStatus = "1"
        · simp only [h1, h2, ne_eq, not_true_eq_false, if_false, Except.ok.injEq] at h
          rw [← h]
        · simp [h1, h2] at h
      · simp [h1] at h

/-! ## C1: which transactions are considered -/

/-- C1: once the fetch has succeeded for the wallet stored at `index`, the list
`newTxs` that `refreshWallet` iterates for transaction alerts is the first
`max(0, fresh.txCount - old.txCount)` entries of `fresh.transactions`, in list
order; the alerts pushed are the balance alert (if any) followed by the alerts
of exactly those entries; when `fresh.txCount <= old.txCount` no entry is
considered and only the balance alert (if any) is pushed. -/
theorem refreshWallet_considers_front (s : State) (index : Nat) (old : Wallet)
    (balanceRes : Response Nat) (txRes : Response (List Tx)) (fresh : WalletData) (now : String)
    (hw : s.monitoredWallets[index]? = some old)
    (hf : fetchWalletData balanceRes txRes = .ok fresh) :
    newTxs old fresh =
        fresh.transactions.take (max 0 ((fresh.txCount : Int) - (old.txCount : Int))).toNat
    ∧ (refreshWallet s index balanceRes txRes now).alerts =
        pushAll s.alerts (balanceAlerts old fresh now ++
          (fresh.transactions.take
            (max 0 ((fresh.txCount : Int) - (old.txCount : Int))).toNat).filterMap
              (txAlert s.thresholds old now))
    ∧ (fresh.txCount ≤ old.txCount →
        newTxs old fresh = [] ∧
        (refreshWallet s index balanceRes txRes now).alerts =
          pushAll s.alerts (balanceAlerts old fresh now)) := by
  have hnew := newTxs_eq_take old fresh
  have hok := refreshWallet_ok s index old balanceRes txRes fresh now hw hf
  refine ⟨hnew, ?_, ?_⟩
  · rw [hok, ← hnew]
    rfl
  · intro hle
    have hnil : newTxs old fresh = [] := by
      unfold newTxs
      rw [if_neg (by omega)]
    refine ⟨hnil, ?_⟩
    rw [hok]
    simp [refreshAlerts, transactionAlerts, hnil]

/-- Witness of `refreshWallet_considers_front` on the sample data: one new
transaction, the first entry of the fetched page, is considered. -/
theorem refreshWallet_considers_front_witness :
    newTxs sampleWallet sampleData = [sampleTx4] := by
  have h := (refreshWallet_considers_front sampleState 0 sampleWallet sampleBalanceRes
    sampleTxRes sampleData sampleNow rfl sample_fetch).1
  rw [h]
  decide

/-! ## C2: the balance alert -/

/-- C2: once the fetch has succeeded for the wallet stored at `index`, the alerts
pushed by `refreshWallet` contain a balance alert if and only if the fetched
balance differs from the stored one (as decimal values); there is then exactly
one, of kind `success` if and only if fetched minus stored is positive and of
kind `warning` otherwise; replacing the threshold configuration by any other
one leaves the balance alert unchanged. -/
theorem refreshWallet_balance_alert (s : State) (index : Nat) (old : Wallet)
    (balanceRes : Response Nat) (txRes : Response (List Tx)) (fresh : WalletData) (now : String)
    (other : Thresholds)
    (hw : s.monitoredWallets[index]? = some old)
    (hf : fetchWalletData balanceRes txRes = .ok fresh) :
    (refreshWallet s index balanceRes txRes now).alerts =
        pushAll s.alerts (refreshAlerts s.thresholds old fresh now)
    ∧ ((∃ a ∈ refreshAlerts s.thresholds old fresh now, a.isBalanceAlert = true) ↔
        (fresh.balance : ℚ) / 10000 ≠ (old.balance : ℚ) / 10000)
    ∧ ((refreshAlerts s.thresholds old fresh now).filter Alert.isBalanceAlert).length =
        (if (fresh.balance : ℚ) / 10000 ≠ (old.balance : ℚ) / 10000 then 1 else 0)
    ∧ (∀ a ∈ refreshAlerts s.thresholds old fresh now, a.isBalanceAlert = true →
        (a.type = .success ↔ 0 < (fresh.balance : ℚ) / 10000 - (old.balance : ℚ) / 10000) ∧
        (a.type = .warning ↔ ¬ 0 < (fresh.balance : ℚ) / 10000 - (old.balance : ℚ) / 10000))
    ∧ (refreshAlerts other old fresh now).filter Alert.isBalanceAlert =
        (refreshAlerts s.thresholds old fresh now).filter Alert.isBalanceAlert := by
  have hok := refreshWallet_ok s index old balanceRes txRes fresh now hw hf
  have hne : (fresh.balance : ℚ) / 10000 ≠ (old.balance : ℚ) / 10000 ↔
      fresh.balance ≠ old.balance := by
    rw [Ne, Ne, div_left_inj' (by norm_num : (10000 : ℚ) ≠ 0)]
    exact_mod_cast Iff.rfl
  have hpos : 0 < (fresh.balance : ℚ) / 10000 - (old.balance : ℚ) / 10000 ↔
      old.balance < fresh.balance := by
    rw [sub_pos, div_lt_div_iff_of_pos_right (by norm_num : (0 : ℚ) < 10000)]
    exact_mod_cast Iff.rfl
  have hmem : ∀ a, (a ∈ refreshAlerts s.thresholds old fresh now ∧ a.isBalanceAlert = true) ↔
      a ∈ balanceAlerts old fresh now := by
    intro a
    rw [← filter_isBalanceAlert s.thresholds old fresh now, List.mem_filter]
  refine ⟨by rw [hok], ?_, ?_, ?_, ?_⟩
  · rw [hne]
    constructor
    · rintro ⟨a, ha, hb⟩
      exact (mem_balanceAlerts old fresh now a ((hmem a).1 ⟨ha, hb⟩)).1
    · intro h
      have hb := balanceAlerts_eq old fresh now
      rw [if_pos h] at hb
      obtain ⟨a, ha⟩ : ∃ a, a ∈ balanceAlerts old fresh now :=
        ⟨_, by rw [hb]; exact List.mem_singleton.2 rfl⟩
      exact ⟨a, ((hmem a).2 ha).1, ((hmem a).2 ha).2⟩
  · rw [filter_isBalanceAlert, balanceAlerts_eq]
    by_cases h : fresh.balance = old.balance
    · simp [h]
    · have h2 := hne.2 h
      rw [if_pos h, if_pos h2]
      rfl
  · intro a ha hb
    obtain ⟨_, hval⟩ := mem_balanceAlerts old fresh now a ((hmem a).1 ⟨ha, hb⟩)
    rw [hpos, hval]
    by_cases hlt : old.balance < fresh.balance <;> simp [hlt]
  · rw [filter_isBalanceAlert, filter_isBalanceAlert]

/-- Witness of `refreshWallet_balance_alert` on the sample data (stored balance
2.0000, fetched balance 2.5000): the hypotheses hold and exactly one balance
alert is pushed. -/
theorem refreshWallet_balance_alert_witness :
    sampleState.monitoredWallets[0]? = some sampleWallet
    ∧ fetchWalletData sampleBalanceRes sampleTxRes = .ok sampleData
    ∧ ((refreshAlerts sampleState.thresholds sampleWallet sampleData sampleNow).filter
        Alert.isBalanceAlert).length =
        (if (sampleData.balance : ℚ) / 10000 ≠ (sampleWallet.balance : ℚ) / 10000 then 1
          else 0) :=
  ⟨rfl, sample_fetch, (refreshWallet_balance_alert sampleState 0 sampleWallet sampleBalanceRes
    sampleTxRes sampleData sampleNow defaultThresholds rfl sample_fetch).2.2.1⟩

/-! ## C3: the committed snapshot -/

/-- C3: for a valid index (the wallet `old` is stored there) and a successful
fetch, after `refreshWallet` the wallet stored at that index has the fetched
balance, txCount and transaction list and the address of `old`; the list keeps
its length and every other entry. -/
theorem refreshWallet_commits_fetch (s : State) (index : Nat) (old : Wallet)
    (balanceRes : Response Nat) (txRes : Response (List Tx)) (fresh : WalletData) (now : String)
    (hw : s.monitoredWallets[index]? = some old)
    (hf : fetchWalletData balanceRes txRes = .ok fresh) :
    (∃ w, (refreshWallet s index balanceRes txRes now).monitoredWallets[index]? = some w ∧
        w.balance = fresh.balance ∧ w.txCount = fresh.txCount ∧
        w.transactions = fresh.transactions ∧ w.address = old.address)
    ∧ (refreshWallet s index balanceRes txRes now).monitoredWallets.length =
        s.monitoredWallets.length
    ∧ (∀ j, j ≠ index →
        (refreshWallet s index balanceRes txRes now).monitoredWallets[j]? =
          s.monitoredWallets[j]?) := by
  have hok := refreshWallet_ok s index old balanceRes txRes fresh now hw hf
  have hlt : index < s.monitoredWallets.length := by
    by_contra hge
    rw [List.getElem?_eq_none (by omega)] at hw
    exact absurd hw (by simp)
  rw [hok]
  refine ⟨⟨updatedWallet old fresh now, ?_, rfl, rfl, rfl, rfl⟩, ?_, ?_⟩
  · simp [hlt]
  · simp
  · intro j hj
    simp [List.getElem?_set, Ne.symm hj]

/-- Witness of `refreshWallet_commits_fetch` on the sample data: the hypotheses
hold and the wallet stored at index 0 afterwards carries the fetched snapshot. -/
theorem refreshWallet_commits_fetch_witness :
    sampleState.monitoredWallets[0]? = some sampleWallet
    ∧ fetchWalletData sampleBalanceRes sampleTxRes = .ok sampleData
    ∧ ∃ w, (refreshWallet sampleState 0 sampleBalanceRes sampleTxRes
          sampleNow).monitoredWallets[0]? = some w ∧
        w.balance = sampleData.balance ∧ w.txCount = sampleData.txCount ∧
        w.transactions = sampleData.transactions ∧ w.address = sampleWallet.address :=
  ⟨rfl, sample_fetch, (refreshWallet_commits_fetch sampleState 0 sampleWallet sampleBalanceRes
    sampleTxRes sampleData sampleNow rfl sample_fetch).1⟩

/-! ## C4: the threshold policy -/

/-- C4: once the fetch has succeeded, the `info` alerts pushed by `refreshWallet`
are the alerts of the transactions of `newTxs`, in order, and a transaction
gets one if and only if `alertOnAnyTx` is true or `minTxValue <= v <= maxTxValue`
(both bounds inclusive, false when a bound is `NaN`), where `v` is the
4-decimal value that line 106 computes: the wei amount divided by 1e18 in
binary64 and printed by `toFixed(4)`, which is within half a unit of the fourth
decimal, plus the binary64 rounding error, of the exact quotient.  With
`alertOnAnyTx = false`, `min = 1`, `max = 100` a transaction of value 0.2 gets
none; one of 100.00005 ETH gets one, its value being 100.0000; and with
`min = 0.0002` one of 0.00015 ETH gets none, its value being 0.0001. -/
theorem refreshWallet_threshold_policy (s : State) (index : Nat) (old : Wallet)
    (balanceRes : Response Nat) (txRes : Response (List Tx)) (fresh : WalletData) (now : String)
    (hw : s.monitoredWallets[index]? = some old)
    (hf : fetchWalletData balanceRes txRes = .ok fresh) :
    (refreshWallet s index balanceRes txRes now).alerts =
        pushAll s.alerts (refreshAlerts s.thresholds old fresh now)
    ∧ (refreshAlerts s.thresholds old fresh now).filter (fun a => decide (a.type = .info)) =
        (newTxs old fresh).filterMap (txAlert s.thresholds old now)
    ∧ (∀ (th : Thresholds) (tx : Tx),
        (∃ a, txAlert th old now tx = some a ∧ a.type = .info ∧ a.txHash = some tx.hash) ↔
          (th.alertOnAnyTx = true ∨
            ∃ lo hi, th.minTxValue = .finite lo ∧ th.maxTxValue = .finite hi ∧
              lo ≤ (toFixed4 tx.value : ℚ) / 10000 ∧ (toFixed4 tx.value : ℚ) / 10000 ≤ hi))
    ∧ (∀ tx : Tx, |(toFixed4 tx.value : ℚ) / 10 ^ 4 - (tx.value : ℚ) / 10 ^ 18| ≤
        1 / 20000 + (tx.value : ℚ) / 10 ^ 18 / 2 ^ 51)
    ∧ (∀ hash sender : String,
        txAlert { minTxValue := .finite 1, maxTxValue := .finite 100, alertOnAnyTx := false }
          old now { hash := hash, from_ := sender, value := 2 * 10 ^ 17 } = none)
    ∧ (∀ hash sender : String,
        (txAlert { minTxValue := .finite 1, maxTxValue := .finite 100, alertOnAnyTx := false }
          old now { hash := hash, from_ := sender, value := 100000050000000000000 }).isSome =
            true)
    ∧ (∀ hash sender : String,
        txAlert { minTxValue := .finite (1 / 5000), maxTxValue := .finite 100,
                  alertOnAnyTx := false }
          old now { hash := hash, from_ := sender, value := 150000000000000 } = none) := by
  have hok := refreshWallet_ok s index old balanceRes txRes fresh now hw hf
  have hiff : ∀ (th : Thresholds) (tx : Tx),
      (txAlert th old now tx).isSome = true ↔
        (th.alertOnAnyTx = true ∨
          ∃ lo hi, th.minTxValue = .finite lo ∧ th.maxTxValue = .finite hi ∧
            lo ≤ (toFixed4 tx.value : ℚ) / 10000 ∧ (toFixed4 tx.value : ℚ) / 10000 ≤ hi) := by
    intro th tx
    rw [txAlert_isSome_iff]
    apply or_congr Iff.rfl
    cases hmin : th.minTxValue with
    | nan => simp [JSNumber.ge, JSNumber.le, parseFloat]
    | finite lo =>
      cases hmax : th.maxTxValue with
      | nan => simp [JSNumber.ge, JSNumber.le, parseFloat]
      | finite hi => simp [JSNumber.ge, JSNumber.le, parseFloat]
  refine ⟨by rw [hok], ?_, ?_, fun tx => toFixed4_precision tx.value, ?_, ?_, ?_⟩
  · rw [filter_info]
    rfl
  · intro th tx
    rw [← hiff]
    constructor
    · rintro ⟨a, ha, _⟩
      rw [ha]
      rfl
    · intro h
      obtain ⟨a, ha⟩ := Option.isSome_iff_exists.1 h
      have hval := txAlert_eq_some th old now tx a ha
      exact ⟨a, ha, by rw [hval], by rw [hval]⟩
  · intro hash sender
    have h := hiff { minTxValue := .finite 1, maxTxValue := .finite 100, alertOnAnyTx := false }
      { hash := hash, from_ := sender, value := 2 * 10 ^ 17 }
    rw [← Option.not_isSome_iff_eq_none, h]
    simp only [toFixed4_fifth]
    norm_num
  · intro hash sender
    have h := hiff { minTxValue := .finite 1, maxTxValue := .finite 100, alertOnAnyTx := false }
      { hash := hash, from_ := sender, value := 100000050000000000000 }
    rw [h]
    simp only [toFixed4_hundred]
    norm_num
  · intro hash sender
    have h := hiff { minTxValue := .finite (1 / 5000), maxTxValue := .finite 100,
                     alertOnAnyTx := false }
      { hash := hash, from_ := sender, value := 150000000000000 }
    rw [← Option.not_isSome_iff_eq_none, h]
    simp only [toFixed4_below_tie]
    norm_num

/-- Witness of `refreshWallet_threshold_policy` on the sample data: the
hypotheses hold and the `info` alerts are those of the considered transactions. -/
theorem refreshWallet_threshold_policy_witness :
    sampleState.monitoredWallets[0]? = some sampleWallet
    ∧ fetchWalletData sampleBalanceRes sampleTxRes = .ok sampleData
    ∧ (refreshAlerts sampleState.thresholds sampleWallet sampleData sampleNow).filter
        (fun a => decide (a.type = .info)) =
        (newTxs sampleWallet sampleData).filterMap
          (txAlert sampleState.thresholds sampleWallet sampleNow) :=
  ⟨rfl, sample_fetch, (refreshWallet_threshold_policy sampleState 0 sampleWallet
    sampleBalanceRes sampleTxRes sampleData sampleNow rfl sample_fetch).2.1⟩

/-! ## C5: the bounded alert log -/

/-- C5: `addAlert L a` is the first 50 entries of `a` followed by `L`: `a` comes
first, followed by the first 49 entries of `L` in their order; the result never
has more than 50 entries; when `L` holds fewer than 50 entries nothing is
dropped, and when `L` holds exactly 50 only its last entry is dropped. -/
theorem addAlert_newest_first_bounded (L : List Alert) (a : Alert) :
    addAlert L a = (a :: L).take 50
    ∧ addAlert L a = a :: L.take 49
    ∧ (addAlert L a).length = min 50 (L.length + 1)
    ∧ (addAlert L a).length ≤ 50
    ∧ (L.length < 50 → addAlert L a = a :: L)
    ∧ (L.length = 50 → addAlert L a = a :: L.dropLast ∧ (addAlert L a).length = 50) := by
  have h49 : addAlert L a = a :: L.take 49 := rfl
  refine ⟨rfl, h49, ?_, ?_, ?_, ?_⟩
  · simp only [addAlert, List.length_take, List.length_cons]
  · simp only [addAlert, List.length_take]
    exact Nat.min_le_left _ _
  · intro h
    rw [h49, List.take_of_length_le (by omega)]
  · intro h
    rw [h49, List.dropLast_eq_take, h]
    simp [h]

/-! ## C6: a fetched txCount lower than the stored one -/

/-- C6, counterexample: the stored wallet has txCount 3 and balance 2.0000, the
fetch succeeds with the same balance and a page of 2 transactions; the run
pushes no alert at all, in particular no `warning` alert reporting the lower
count. -/
theorem refreshWallet_lower_txCount_counterexample :
    sampleState.monitoredWallets[0]? = some sampleWallet
    ∧ fetchWalletData sameBalanceRes shorterTxRes = .ok shorterData
    ∧ shorterData.txCount < sampleWallet.txCount
    ∧ sampleState.alerts = []
    ∧ (refreshWallet sampleState 0 sameBalanceRes shorterTxRes sampleNow).alerts = []
    ∧ ¬ ∃ a ∈ (refreshWallet sampleState 0 sameBalanceRes shorterTxRes sampleNow).alerts,
        a.type = .warning := by
  have hok := refreshWallet_ok sampleState 0 sampleWallet sameBalanceRes shorterTxRes
    shorterData sampleNow rfl shorter_fetch
  have hb : balanceAlerts sampleWallet shorterData sampleNow = [] := by
    rw [balanceAlerts_eq]
    rfl
  have ht : transactionAlerts sampleState.thresholds sampleWallet shorterData sampleNow = [] := rfl
  have hnil : (refreshWallet sampleState 0 sameBalanceRes shorterTxRes sampleNow).alerts = [] := by
    rw [hok]
    show pushAll [] (balanceAlerts sampleWallet shorterData sampleNow ++
      transactionAlerts sampleState.thresholds sampleWallet shorterData sampleNow) = []
    rw [hb, ht]
    rfl
  refine ⟨rfl, shorter_fetch, by decide, rfl, hnil, ?_⟩
  rw [hnil]
  simp

/-- C6, amended: when the fetch succeeds with a txCount lower than the stored
one, `refreshWallet` pushes no transaction alert and no alert about the lower
count: what it pushes is exactly the balance alert of the run (none when the
balances are equal); the snapshot is committed with the lower txCount. -/
theorem refreshWallet_lower_txCount (s : State) (index : Nat) (old : Wallet)
    (balanceRes : Response Nat) (txRes : Response (List Tx)) (fresh : WalletData) (now : String)
    (hw : s.monitoredWallets[index]? = some old)
    (hf : fetchWalletData balanceRes txRes = .ok fresh)
    (hlt : fresh.txCount < old.txCount) :
    transactionAlerts s.thresholds old fresh now = []
    ∧ refreshAlerts s.thresholds old fresh now = balanceAlerts old fresh now
    ∧ (refreshWallet s index balanceRes txRes now).alerts =
        pushAll s.alerts (balanceAlerts old fresh now)
    ∧ (fresh.balance = old.balance →
        (refreshWallet s index balanceRes txRes now).alerts = s.alerts)
    ∧ (∃ w, (refreshWallet s index balanceRes txRes now).monitoredWallets[index]? = some w ∧
        w.txCount = fresh.txCount ∧ w.balance = fresh.balance ∧
        w.transactions = fresh.transactions) := by
  have hok := refreshWallet_ok s index old balanceRes txRes fresh now hw hf
  have hidx : index < s.monitoredWallets.length := by
    by_contra hge
    rw [List.getElem?_eq_none (by omega)] at hw
    exact absurd hw (by simp)
  have ht : transactionAlerts s.thresholds old fresh now = [] := by
    unfold transactionAlerts newTxs
    rw [if_neg (by omega)]
    rfl
  have hr : refreshAlerts s.thresholds old fresh now = balanceAlerts old fresh now := by
    unfold refreshAlerts
    rw [ht, List.append_nil]
  refine ⟨ht, hr, by rw [hok, hr], ?_, ?_⟩
  · intro hb
    rw [hok, hr, balanceAlerts_eq, if_neg (by simp [hb])]
    rfl
  · rw [hok]
    exact ⟨updatedWallet old fresh now, by simp [hidx], rfl, rfl, rfl⟩

/-- Witness of `refreshWallet_lower_txCount` on the sample wallet and a page of
two transactions. -/
theorem refreshWallet_lower_txCount_witness :
    sampleState.monitoredWallets[0]? = some sampleWallet
    ∧ fetchWalletData sameBalanceRes shorterTxRes = .ok shorterData
    ∧ shorterData.txCount < sampleWallet.txCount
    ∧ transactionAlerts sampleState.thresholds sampleWallet shorterData sampleNow = [] :=
  ⟨rfl, shorter_fetch, by decide, (refreshWallet_lower_txCount sampleState 0 sampleWallet
    sameBalanceRes shorterTxRes shorterData sampleNow rfl shorter_fetch (by decide)).1⟩

/-! ## C7: a failed fetch -/

/-- C7: when a request of the fetch throws or answers with a status other than
'1', `fetchWalletData` fails; `refreshWallet` then leaves the monitored-wallet
list exactly as it was and pushes exactly one alert, of kind `error`; and
`addWallet` (called with an address and a key, so that it fetches) stores no
wallet and pushes exactly one alert, of kind `error`. -/
theorem failed_fetch_keeps_wallets (s : State) (index : Nat)
    (balanceRes : Response Nat) (txRes : Response (List Tx)) (now : String)
    (hfail : balanceRes.succeeded = false ∨ txRes.succeeded = false) :
    (∃ reason, fetchWalletData balanceRes txRes = .error reason)
    ∧ (refreshWallet s index balanceRes txRes now).monitoredWallets = s.monitoredWallets
    ∧ (∃ a, a.type = .error ∧
        (refreshWallet s index balanceRes txRes now).alerts = addAlert s.alerts a)
    ∧ (s.walletAddress ≠ "" → s.apiKey ≠ "" →
        (addWallet s balanceRes txRes now).monitoredWallets = s.monitoredWallets ∧
        ∃ a, a.type = .error ∧
          (addWallet s balanceRes txRes now).alerts = addAlert s.alerts a) := by
  obtain ⟨reason, hr⟩ := fetchWalletData_error_of_failed balanceRes txRes hfail
  refine ⟨⟨reason, hr⟩, ?_, ?_, ?_⟩
  · unfold refreshWallet
    cases hw : s.monitoredWallets[index]? with
    | none => rfl
    | some w => simp only [hr]
  · unfold refreshWallet
    cases hw : s.monitoredWallets[index]? with
    | none => exact ⟨_, rfl, rfl⟩
    | some w =>
      simp only [hr]
      exact ⟨_, rfl, rfl⟩
  · intro ha hk
    unfold addWallet
    rw [if_neg (by simp [ha, hk])]
    simp only [hr]
    exact ⟨trivial, _, rfl, rfl⟩

/-- Witness of `failed_fetch_keeps_wallets`: the balance request answers with
status '0'; the sample wallet list is kept. -/
theorem failed_fetch_keeps_wallets_witness :
    (rejectedBalanceRes.succeeded = false ∨ sampleTxRes.succeeded = false)
    ∧ (refreshWallet sampleState 0 rejectedBalanceRes sampleTxRes sampleNow).monitoredWallets =
        sampleState.monitoredWallets :=
  ⟨Or.inl rfl, (failed_fetch_keeps_wallets sampleState 0 rejectedBalanceRes sampleTxRes
    sampleNow (Or.inl rfl)).2.1⟩

/-! ## C8: the shape of a transaction alert -/

/-- C8: once the fetch has succeeded, every transaction alert pushed by
`refreshWallet` has kind `info` and belongs to a transaction of `newTxs`: it
carries that transaction's hash as `txHash`, and its message reports `sent` if
and only if the lowercased `from` field equals the lowercased wallet address,
and `received` otherwise. -/
theorem refreshWallet_transaction_alert_shape (s : State) (index : Nat) (old : Wallet)
    (balanceRes : Response Nat) (txRes : Response (List Tx)) (fresh : WalletData) (now : String)
    (hw : s.monitoredWallets[index]? = some old)
    (hf : fetchWalletData balanceRes txRes = .ok fresh) :
    (refreshWallet s index balanceRes txRes now).alerts =
        pushAll s.alerts (refreshAlerts s.thresholds old fresh now)
    ∧ ∀ a ∈ refreshAlerts s.thresholds old fresh now, a.isTransactionAlert = true →
        a.type = .info ∧
        ∃ tx ∈ newTxs old fresh, a.txHash = some tx.hash ∧
          ∃ v d, a.message = .newTransaction v d ∧
            (d = .sent ↔ toLowerCase tx.from_ = toLowerCase old.address) ∧
            (d = .received ↔ toLowerCase tx.from_ ≠ toLowerCase old.address) := by
  have hok := refreshWallet_ok s index old balanceRes txRes fresh now hw hf
  refine ⟨by rw [hok], ?_⟩
  intro a ha hta
  have hmem : a ∈ transactionAlerts s.thresholds old fresh now := by
    rw [← filter_isTransactionAlert, List.mem_filter]
    exact ⟨ha, hta⟩
  obtain ⟨tx, htx, hsome⟩ := mem_transactionAlerts s.thresholds old fresh now a hmem
  have hval := txAlert_eq_some s.thresholds old now tx a hsome
  refine ⟨by rw [hval], tx, htx, by rw [hval], _, _, by rw [hval], ?_, ?_⟩
  · by_cases hc : toLowerCase tx.from_ = toLowerCase old.address <;> simp [hc]
  · by_cases hc : toLowerCase tx.from_ = toLowerCase old.address <;> simp [hc]

/-- Witness of `refreshWallet_transaction_alert_shape` on the sample data: the
hypotheses hold, and the alert of the new transaction `0xaa`, whose `from` is
the wallet address in another letter case, is a transaction alert of the run. -/
theorem refreshWallet_transaction_alert_shape_witness :
    sampleState.monitoredWallets[0]? = some sampleWallet
    ∧ fetchWalletData sampleBalanceRes sampleTxRes = .ok sampleData
    ∧ (refreshWallet sampleState 0 sampleBalanceRes sampleTxRes sampleNow).alerts =
        pushAll sampleState.alerts
          (refreshAlerts sampleState.thresholds sampleWallet sampleData sampleNow) :=
  ⟨rfl, sample_fetch, (refreshWallet_transaction_alert_shape sampleState 0 sampleWallet
    sampleBalanceRes sampleTxRes sampleData sampleNow rfl sample_fetch).1⟩

/-! ## C9: idempotence -/

/-- C9: when the fetch succeeds with the balance, txCount and transactions of the
stored snapshot, `refreshWallet` pushes no alert (the log is unchanged) and the
stored wallet only gets a new `lastChecked`; nothing else in the state changes
but the `loading` flag, which is reset. -/
theorem refreshWallet_idempotent (s : State) (index : Nat) (old : Wallet)
    (balanceRes : Response Nat) (txRes : Response (List Tx)) (fresh : WalletData) (now : String)
    (hw : s.monitoredWallets[index]? = some old)
    (hf : fetchWalletData balanceRes txRes = .ok fresh)
    (hb : fresh.balance = old.balance)
    (hc : fresh.txCount = old.txCount)
    (ht : fresh.transactions = old.transactions) :
    refreshAlerts s.thresholds old fresh now = []
    ∧ (refreshWallet s index balanceRes txRes now).alerts = s.alerts
    ∧ (refreshWallet s index balanceRes txRes now).monitoredWallets =
        s.monitoredWallets.set index { old with lastChecked := now }
    ∧ refreshWallet s index balanceRes txRes now =
        { s with monitoredWallets := s.monitoredWallets.set index { old with lastChecked := now },
                 loading := false } := by
  have hok := refreshWallet_ok s index old balanceRes txRes fresh now hw hf
  have hnil : refreshAlerts s.thresholds old fresh now = [] := by
    unfold refreshAlerts transactionAlerts newTxs
    rw [balanceAlerts_eq, if_neg (by simp [hb]), if_neg (by omega)]
    rfl
  have hup : updatedWallet old fresh now = { old with lastChecked := now } := by
    unfold updatedWallet
    rw [hb, hc, ht]
  rw [hok, hnil, hup]
  exact ⟨rfl, rfl, rfl, rfl⟩

/-- Witness of `refreshWallet_idempotent`: the fetch returns the snapshot stored
in the sample wallet; the alert log is unchanged. -/
theorem refreshWallet_idempotent_witness :
    sampleState.monitoredWallets[0]? = some sampleWallet
    ∧ fetchWalletData sameBalanceRes sameTxRes = .ok sameData
    ∧ sameData.balance = sampleWallet.balance
    ∧ sameData.txCount = sampleWallet.txCount
    ∧ sameData.transactions = sampleWallet.transactions
    ∧ (refreshWallet sampleState 0 sameBalanceRes sameTxRes sampleNow).alerts =
        sampleState.alerts :=
  ⟨rfl, same_fetch, rfl, rfl, rfl, (refreshWallet_idempotent sampleState 0 sampleWallet
    sameBalanceRes sameTxRes sameData sampleNow rfl same_fetch rfl rfl rfl).2.1⟩

/-! ## C10: the address stored by addWallet -/

/-- C10, counterexample: adding the mixed-case address `sampleAddress` with a
successful fetch stores exactly one wallet, whose address is `sampleAddress`
as typed and not its lowercase form. -/
theorem addWallet_case_fold_counterexample :
    sampleAddState.walletAddress ≠ "" ∧ sampleAddState.apiKey ≠ ""
    ∧ fetchWalletData sampleBalanceRes sampleTxRes = .ok sampleData
    ∧ ∃ w,
        (addWallet sampleAddState sampleBalanceRes sampleTxRes sampleNow).monitoredWallets = [w]
        ∧ w.address = "0xAbCdEf0123456789aBcDeF0123456789abcdef01"
        ∧ toLowerCase sampleAddState.walletAddress = "0xabcdef0123456789abcdef0123456789abcdef01"
        ∧ w.address ≠ toLowerCase sampleAddState.walletAddress := by
  refine ⟨by decide, by decide, sample_fetch, ?_⟩
  have hadd : (addWallet sampleAddState sampleBalanceRes sampleTxRes sampleNow).monitoredWallets =
      [{ address := sampleAddress, balance := 25000, txCount := 4, lastChecked := sampleNow,
         transactions := [sampleTx4, sampleTx3, sampleTx2, sampleTx1] }] := by
    unfold addWallet
    rw [if_neg (by decide)]
    simp only [sample_fetch]
    rfl
  refine ⟨_, hadd, rfl, ?_, ?_⟩
  · decide
  · decide

/-- C10, amended: when `addWallet` is called with an address and a key and the
fetch succeeds, the wallet it appends to the list has the supplied address
exactly as supplied, without case-folding, together with the fetched balance,
txCount and transactions. -/
theorem addWallet_stores_address_verbatim (s : State)
    (balanceRes : Response Nat) (txRes : Response (List Tx)) (fresh : WalletData) (now : String)
    (ha : s.walletAddress ≠ "") (hk : s.apiKey ≠ "")
    (hf : fetchWalletData balanceRes txRes = .ok fresh) :
    ∃ w, (addWallet s balanceRes txRes now).monitoredWallets = s.monitoredWallets ++ [w]
      ∧ w.address = s.walletAddress
      ∧ w.balance = fresh.balance ∧ w.txCount = fresh.txCount
      ∧ w.transactions = fresh.transactions := by
  unfold addWallet
  rw [if_neg (by simp [ha, hk])]
  simp only [hf]
  exact ⟨_, rfl, rfl, rfl, rfl, rfl⟩

/-- Witness of `addWallet_stores_address_verbatim` on the mixed-case sample
address. -/
theorem addWallet_stores_address_verbatim_witness :
    sampleAddState.walletAddress ≠ "" ∧ sampleAddState.apiKey ≠ ""
    ∧ fetchWalletData sampleBalanceRes sampleTxRes = .ok sampleData
    ∧ ∃ w, (addWallet sampleAddState sampleBalanceRes sampleTxRes sampleNow).monitoredWallets =
          sampleAddState.monitoredWallets ++ [w]
        ∧ w.address = sampleAddState.walletAddress
        ∧ w.balance = sampleData.balance ∧ w.txCount = sampleData.txCount
        ∧ w.transactions = sampleData.transactions :=
  ⟨by decide, by decide, sample_fetch, addWallet_stores_address_verbatim sampleAddState
    sampleBalanceRes sampleTxRes sampleData sampleNow (by decide) (by decide) sample_fetch⟩

/-! ## C11: a wallet whose txCount already is the page size -/

/-- C11: `fetchWalletData` sets `txCount` to the length of the fetched page; so
when the stored txCount already is the page size of 10 and the fetched page has
at most 10 entries, `newTxs` is empty and `refreshWallet` pushes no transaction
alert, whatever the fetched transactions and the thresholds are: the alerts of
the run are the balance alert alone (if any). -/
theorem refreshWallet_full_page_no_transaction_alert (s : State) (index : Nat) (old : Wallet)
    (balanceRes : Response Nat) (txRes : Response (List Tx)) (fresh : WalletData) (now : String)
    (hw : s.monitoredWallets[index]? = some old)
    (hf : fetchWalletData balanceRes txRes = .ok fresh)
    (hfull : old.txCount = pageSize)
    (hpage : fresh.transactions.length ≤ pageSize) :
    fresh.txCount = fresh.transactions.length
    ∧ newTxs old fresh = []
    ∧ transactionAlerts s.thresholds old fresh now = []
    ∧ (∀ a ∈ refreshAlerts s.thresholds old fresh now, a.isTransactionAlert = false)
    ∧ (refreshWallet s index balanceRes txRes now).alerts =
        pushAll s.alerts (balanceAlerts old fresh now) := by
  have hok := refreshWallet_ok s index old balanceRes txRes fresh now hw hf
  have hcount := fetchWalletData_txCount balanceRes txRes fresh hf
  have hnew : newTxs old fresh = [] := by
    unfold newTxs
    rw [if_neg (by omega)]
  have ht : transactionAlerts s.thresholds old fresh now = [] := by
    unfold transactionAlerts
    rw [hnew]
    rfl
  have hr : refreshAlerts s.thresholds old fresh now = balanceAlerts old fresh now := by
    unfold refreshAlerts
    rw [ht, List.append_nil]
  refine ⟨hcount, hnew, ht, ?_, by rw [hok, hr]⟩
  intro a ha
  rw [hr] at ha
  rw [(mem_balanceAlerts old fresh now a ha).2]
  rfl

/-- Witness of `refreshWallet_full_page_no_transaction_alert`: the stored wallet
has txCount 10, the fetched page holds ten transactions none of whose hashes is
stored, every transaction qualifies (`alertOnAnyTx`), and yet no transaction
alert is passed to `addAlert`. -/
theorem refreshWallet_full_page_no_transaction_alert_witness :
    fullState.monitoredWallets[0]? = some fullWallet
    ∧ fetchWalletData sameBalanceRes freshPageRes = .ok freshPageData
    ∧ fullWallet.txCount = pageSize
    ∧ freshPageData.transactions.length ≤ pageSize
    ∧ fullState.thresholds.alertOnAnyTx = true
    ∧ (∀ tx ∈ freshPageData.transactions, tx.hash ∉ fullWallet.transactions.map Tx.hash)
    ∧ transactionAlerts fullState.thresholds fullWallet freshPageData sampleNow = [] :=
  ⟨rfl, freshPage_fetch, rfl, by decide, rfl, by decide,
    (refreshWallet_full_page_no_transaction_alert fullState 0 fullWallet sameBalanceRes
      freshPageRes freshPageData sampleNow rfl freshPage_fetch rfl (by decide)).2.2.1⟩

end EthWalletMonitor
